import Mathlib

/-!
Verification of the scroll-driven category-card animation
(`CategoryCards`, second/later variant in the repository, plus the
`animate` frame driver). All JavaScript numbers are modelled as exact
rationals (ℚ); `Math.PI` is modelled by the abstract constant `piQ`
whose numeric value no property depends on. DOM objects (section,
container, renderer, camera, raycaster) are modelled by presence flags,
and the raycaster is an oracle input to each frame returning the index
of the nearest hit card, if any.
-/

namespace CategoryCards

/-- Models the IEEE double `Math.PI`; no verified property depends on its
numeric value, only on it being the cards' initial rotation. -/
def piQ : ℚ := 3.141592653589793

/-- Source: `const easeInOutCubic = (t) => t < 0.5 ? 4*t*t*t : 1 - Math.pow(-2*t+2, 3)/2`. -/
def easeInOutCubic (t : ℚ) : ℚ :=
  if t < 0.5 then 4 * t * t * t
  else 1 - (-2 * t + 2) ^ 3 / 2

/-- Source: `const flipProgress = Math.min(1, this.scrollProgress / 0.4)`. -/
def flipProgress (scrollProgress : ℚ) : ℚ :=
  min 1 (scrollProgress / 0.4)

/-- Source: `const spreadProgress = Math.max(0, (this.scrollProgress - 0.4) / 0.6)`. -/
def spreadProgress (scrollProgress : ℚ) : ℚ :=
  max 0 ((scrollProgress - 0.4) / 0.6)

/-- Source: `const easedFlip = easeInOutCubic(flipProgress)`. -/
def easedFlip (scrollProgress : ℚ) : ℚ :=
  easeInOutCubic (flipProgress scrollProgress)

/-- Source: `const easedSpread = easeInOutCubic(spreadProgress)`. -/
def easedSpread (scrollProgress : ℚ) : ℚ :=
  easeInOutCubic (spreadProgress scrollProgress)

/-- Source: `this.interactionsEnabled = flipProgress >= 1`. -/
def computeInteractionsEnabled (scrollProgress : ℚ) : Bool :=
  decide (1 ≤ flipProgress scrollProgress)

/-- Source: `this.ANIMATION_SCROLL_DISTANCE = 3200` (constructor). -/
def ANIMATION_SCROLL_DISTANCE : ℚ := 3200

/-- Source: `this.scrollProgress = Math.min(1, scrolledSinceSticky / this.ANIMATION_SCROLL_DISTANCE)`
(the pinned branch of `animate`), with the scroll distance abstracted as a
parameter so that hypothetical distances can be discussed. -/
def pinnedProgress (dist scrolledSinceSticky : ℚ) : ℚ :=
  min 1 (scrolledSinceSticky / dist)

/-- Source: `card.userData.hoverScale += (target - card.userData.hoverScale) * 0.15`
(one exponential-smoothing step toward `target`). -/
def smoothStep (target current : ℚ) : ℚ :=
  current + (target - current) * 0.15

/-- Iterated smoothing: `smoothIter target c n` is the value after `n` frames
starting from `c` with a constant target. -/
def smoothIter (target current : ℚ) : Nat → ℚ
  | 0 => current
  | n + 1 => smoothStep target (smoothIter target current n)

/-- Per-card state: the static fields of `userData` set in `createCards`,
the mutable smoothed hover fields, and the committed mesh pose
(`rotation.y`, `position.x`, `position.z`, the uniform scale set by
`card.scale.set(s, s, s)`). `position.y` is constantly 0 in the source and
is omitted. -/
structure CardState where
  index : Nat
  categoryName : String
  targetX : ℚ
  initialX : ℚ
  initialRotation : ℚ
  baseZ : ℚ
  hoverScale : ℚ
  hoverZ : ℚ
  rotationY : ℚ
  positionX : ℚ
  positionZ : ℚ
  scaleXYZ : ℚ
deriving DecidableEq

/-- The notification payload dispatched as the `categoryCardClick` custom
event: `detail: { category, index }`. -/
structure ClickEventDetail where
  category : String
  index : Nat
deriving DecidableEq

/-- The instance state of a `CategoryCards` object. DOM/three.js object
references (`container`, `camera`, `renderer`, `raycaster`) are modelled by
presence flags; the cursor style is `cursorPointer = true` for `'pointer'`
and `false` for `'default'`. `sectionTop`/`sectionBottom` are write-only
caches in the source (never read by the animation logic) and are omitted. -/
structure State where
  cards : List CardState
  scrollProgress : ℚ
  stickyStartScroll : Option ℚ
  hoveredCard : Option Nat
  interactionsEnabled : Bool
  mouseIsOver : Bool
  mouseX : ℚ
  mouseY : ℚ
  hasContainer : Bool
  hasCamera : Bool
  hasRenderer : Bool
  hasRaycaster : Bool
  cursorPointer : Bool
deriving DecidableEq

/-- The constructor: empty card list, progress 0, no anchor, mouse parked at
the off-screen sentinel (−999, −999), interactions disabled, no hover. -/
def initState : State :=
  { cards := []
    scrollProgress := 0
    stickyStartScroll := none
    hoveredCard := none
    interactionsEnabled := false
    mouseIsOver := false
    mouseX := -999
    mouseY := -999
    hasContainer := false
    hasCamera := false
    hasRenderer := false
    hasRaycaster := false
    cursorPointer := false }

/-- The `init()` method: returns early when the container element is absent,
otherwise creates the camera, scene, raycaster and renderer (modelled as
presence flags) and sets the cursor to `'default'`. -/
def init (containerFound : Bool) (s : State) : State :=
  if containerFound then
    { s with hasContainer := true, hasCamera := true,
             hasRenderer := true, hasRaycaster := true, cursorPointer := false }
  else s

/-- The five categories created by `createCards`, in insertion order. -/
def categoryNames : List String :=
  ["Baseball", "Basketball", "Hockey", "Golf", "Football"]

/-- One card as built in `createCards` (later variant): stacked start
`position.x = i * 0.25`, `position.z = i * 0.5`, back face visible
(`rotation.y = π`), `targetX = (i - centerOffset) * spacing` with
`centerOffset = (5 - 1) / 2 = 2`, hover state at rest. `spacing` is
trigonometry-derived from the container dimensions
(`baseCardWidth * CARD_SCALE * 1.2`) and is kept as a parameter. -/
def mkCard (spacing : ℚ) (i : Nat) (name : String) : CardState :=
  { index := i
    categoryName := name
    targetX := ((i : ℚ) - 2) * spacing
    initialX := 0
    initialRotation := piQ
    baseZ := (i : ℚ) * 0.5
    hoverScale := 1
    hoverZ := 0
    rotationY := piQ
    positionX := (i : ℚ) * 0.25
    positionZ := (i : ℚ) * 0.5
    scaleXYZ := 1 }

/-- The `createCards` method: pushes the five category cards onto
`this.cards`. -/
def createCards (spacing : ℚ) (s : State) : State :=
  { s with cards :=
      s.cards ++ (List.range 5).map (fun i => mkCard spacing i (categoryNames.getD i "")) }

/-- The body of the `forEach` in `applyScrollAnimation`: commit rotation and
horizontal position from the eased phase values, then one smoothing step of
the hover scale and elevation toward their targets (1.1 / 1.5 when this card
is the enabled hovered card, else 1 / 0), and commit scale and `position.z`. -/
def updateCard (easedF easedS : ℚ) (enabled : Bool) (hovered : Option Nat)
    (c : CardState) : CardState :=
  let isHovered := enabled = true ∧ hovered = some c.index
  let targetHoverScale : ℚ := if isHovered then 1.1 else 1
  let targetHoverZ : ℚ := if isHovered then 1.5 else 0
  let hs := smoothStep targetHoverScale c.hoverScale
  let hz := smoothStep targetHoverZ c.hoverZ
  { c with
    rotationY := c.initialRotation * (1 - easedF)
    positionX := c.initialX + (c.targetX - c.initialX) * easedS
    hoverScale := hs
    hoverZ := hz
    scaleXYZ := hs
    positionZ := c.baseZ + hz }

/-- The `applyScrollAnimation` method: early return on an empty card list;
compute the eased flip and spread sub-progress values; set
`interactionsEnabled = (flipProgress ≥ 1)`; on its falling edge clear the
hover and reset the cursor (cursor only when a renderer exists); then update
every card. -/
def applyScrollAnimation (s : State) : State :=
  if s.cards.isEmpty then s
  else
    let easedF := easedFlip s.scrollProgress
    let easedS := easedSpread s.scrollProgress
    let wasEnabled := s.interactionsEnabled
    let enabled := computeInteractionsEnabled s.scrollProgress
    let hovered := if wasEnabled = true ∧ enabled = false then none else s.hoveredCard
    let cursor := if wasEnabled = true ∧ enabled = false ∧ s.hasRenderer = true then
        false
      else s.cursorPointer
    { s with
      interactionsEnabled := enabled
      hoveredCard := hovered
      cursorPointer := cursor
      cards := s.cards.map (updateCard easedF easedS enabled hovered) }

/-- The `checkIntersections` method (later variant): when interactions are
disabled, clear any hover and reset the cursor, and return; when the mouse is
not over the canvas, return without touching the hover; when raycaster,
camera or cards are missing, return; otherwise adopt the nearest ray hit
(`hit`, the oracle result of `raycaster.intersectObjects(this.cards, false)`)
as the hovered card, or clear the hover on no hit, updating the cursor on
each change. -/
def checkIntersections (hit : Option Nat) (s : State) : State :=
  if s.interactionsEnabled = false then
    if s.hoveredCard ≠ none then
      { s with hoveredCard := none
               cursorPointer := if s.hasRenderer then false else s.cursorPointer }
    else s
  else if s.mouseIsOver = false then s
  else if s.hasRaycaster = false ∨ s.hasCamera = false ∨ s.cards.isEmpty then s
  else
    match hit with
    | some i =>
      if s.hoveredCard ≠ some i then
        { s with hoveredCard := some i
                 cursorPointer := if s.hasRenderer then true else s.cursorPointer }
      else s
    | none =>
      if s.hoveredCard ≠ none then
        { s with hoveredCard := none
                 cursorPointer := if s.hasRenderer then false else s.cursorPointer }
      else s

/-- The `animate` frame method: no-op when the categories section is absent;
while the section top edge is at or above the viewport top (`rectTop ≤ 0`)
record the anchor on the first pinned frame and map scroll-since-pinned to
progress, otherwise reset progress to 0 and clear the anchor; then run
`applyScrollAnimation` and `checkIntersections`. -/
def animate (sectionExists : Bool) (rectTop currentScroll : ℚ) (hit : Option Nat)
    (s : State) : State :=
  if sectionExists then
    let s1 :=
      if rectTop ≤ 0 then
        let anchor := s.stickyStartScroll.getD currentScroll
        { s with stickyStartScroll := some anchor
                 scrollProgress :=
                   pinnedProgress ANIMATION_SCROLL_DISTANCE (currentScroll - anchor) }
      else
        { s with scrollProgress := 0, stickyStartScroll := none }
    checkIntersections hit (applyScrollAnimation s1)
  else s

/-- The `onMouseMove` handler: early return without container or renderer;
mark the mouse as over the canvas and store its normalized device
coordinates computed from the canvas bounding rectangle. -/
def onMouseMove (clientX clientY rectLeft rectTop rectW rectH : ℚ) (s : State) : State :=
  if s.hasContainer = false ∨ s.hasRenderer = false then s
  else
    { s with
      mouseIsOver := true
      mouseX := ((clientX - rectLeft) / rectW) * 2 - 1
      mouseY := -((clientY - rectTop) / rectH) * 2 + 1 }

/-- The `onMouseLeave` handler: mark the mouse as gone, park it at the
off-screen sentinel (−999, −999), and clear any hover (resetting the cursor
when a renderer exists). -/
def onMouseLeave (s : State) : State :=
  let s1 := { s with mouseIsOver := false, mouseX := -999, mouseY := -999 }
  if s1.hoveredCard ≠ none then
    { s1 with hoveredCard := none
              cursorPointer := if s1.hasRenderer then false else s1.cursorPointer }
  else s1

/-- The `onClick` handler: no-op unless interactions are enabled and renderer
and camera exist; when a card is hovered, dispatch exactly one
`categoryCardClick` event carrying its category name and index. The handler
never mutates the animation state, so it returns the unchanged state plus
the list of dispatched events. (In the source `hoveredCard` is an object
reference, always one of `this.cards`; here it is an index looked up in the
card list.) -/
def onClick (s : State) : State × List ClickEventDetail :=
  if s.interactionsEnabled = false ∨ s.hasRenderer = false ∨ s.hasCamera = false then
    (s, [])
  else
    match s.hoveredCard with
    | none => (s, [])
    | some i =>
      match s.cards.find? (fun c => c.index == i) with
      | some c => (s, [{ category := c.categoryName, index := c.index }])
      | none => (s, [])

/-- One externally triggered transition of a `CategoryCards` instance: a
render-loop frame (with the raycaster oracle constrained to return one of
the instance's cards), a pointer move, a pointer leave, a click, `init`, or
`createCards`. -/
inductive Step : State → State → Prop where
  | frame (s : State) (sectionExists : Bool) (rectTop currentScroll : ℚ)
      (hit : Option Nat)
      (hhit : ∀ i, hit = some i → ∃ c ∈ s.cards, c.index = i) :
      Step s (animate sectionExists rectTop currentScroll hit s)
  | mouseMove (s : State) (clientX clientY rectLeft rectTop rectW rectH : ℚ) :
      Step s (onMouseMove clientX clientY rectLeft rectTop rectW rectH s)
  | mouseLeave (s : State) : Step s (onMouseLeave s)
  | click (s : State) : Step s (onClick s).1
  | setup (s : State) (containerFound : Bool) : Step s (init containerFound s)
  | create (s : State) (spacing : ℚ) : Step s (createCards spacing s)

/-- States reachable from the freshly constructed instance. -/
inductive Reachable : State → Prop where
  | base : Reachable initState
  | step {s s' : State} : Reachable s → Step s s' → Reachable s'

/-- Per-card bounds maintained by the hover smoothing: scale and committed
scale in [1, 1.1], hover elevation in [0, 1.5], committed depth equal to the
static stacking offset plus the hover elevation. -/
def cardBounds (c : CardState) : Prop :=
  (1 ≤ c.hoverScale ∧ c.hoverScale ≤ 1.1) ∧
  (0 ≤ c.hoverZ ∧ c.hoverZ ≤ 1.5) ∧
  (1 ≤ c.scaleXYZ ∧ c.scaleXYZ ≤ 1.1) ∧
  c.positionZ = c.baseZ + c.hoverZ

/-- The inductive invariant of the interaction state machine: no hover while
the pointer is off the canvas, no hover while interactions are disabled, and
every card within its hover bounds. -/
def Inv (s : State) : Prop :=
  (s.mouseIsOver = false → s.hoveredCard = none) ∧
  (s.interactionsEnabled = false → s.hoveredCard = none) ∧
  ∀ c ∈ s.cards, cardBounds c

theorem easeInOutCubic_zero : easeInOutCubic 0 = 0 := by
  norm_num [easeInOutCubic]

theorem easeInOutCubic_mem {t : ℚ} (h0 : 0 ≤ t) (h1 : t ≤ 1) :
    0 ≤ easeInOutCubic t ∧ easeInOutCubic t ≤ 1 := by
  rw [easeInOutCubic]
  split
  · constructor
    · nlinarith [mul_nonneg (mul_nonneg h0 h0) h0]
    · nlinarith [mul_nonneg h0 h0, sq_nonneg (t - 1/2)]
  · rename_i h
    push_neg at h
    have hu0 : (0 : ℚ) ≤ -2 * t + 2 := by linarith
    have hu1 : (-2 : ℚ) * t + 2 ≤ 1 := by
      have : (0.5 : ℚ) = 1 / 2 := by norm_num
      linarith [h.trans_eq' this.symm]
    have h3 : (0 : ℚ) ≤ (-2 * t + 2) ^ 3 := pow_nonneg hu0 3
    have h4 : (-2 * t + 2) ^ 3 ≤ 1 := pow_le_one₀ hu0 hu1
    constructor <;> linarith

theorem spreadProgress_eq_zero {p : ℚ} (h : p ≤ 0.4) : spreadProgress p = 0 := by
  rw [spreadProgress, max_eq_left]
  rw [div_nonpos_iff]
  right
  constructor <;> [linarith; norm_num]

theorem flipProgress_mem {p : ℚ} (h0 : 0 ≤ p) :
    0 ≤ flipProgress p ∧ flipProgress p ≤ 1 := by
  rw [flipProgress]
  exact ⟨le_min (by norm_num) (div_nonneg h0 (by norm_num)), min_le_left _ _⟩

theorem spreadProgress_mem {p : ℚ} (h1 : p ≤ 1) :
    0 ≤ spreadProgress p ∧ spreadProgress p ≤ 1 := by
  rw [spreadProgress]
  refine ⟨le_max_left _ _, max_le (by norm_num) ?_⟩
  rw [div_le_one (by norm_num)]
  linarith

theorem computeInteractionsEnabled_iff (p : ℚ) :
    computeInteractionsEnabled p = true ↔ 0.4 ≤ p := by
  rw [computeInteractionsEnabled, decide_eq_true_eq, flipProgress, le_min_iff]
  constructor
  · rintro ⟨-, h⟩
    rw [le_div_iff₀ (by norm_num)] at h
    linarith
  · intro h
    refine ⟨le_refl 1, ?_⟩
    rw [le_div_iff₀ (by norm_num)]
    linarith

theorem computeInteractionsEnabled_eq_false_iff (p : ℚ) :
    computeInteractionsEnabled p = false ↔ p < 0.4 := by
  rw [← Bool.not_eq_true, not_iff_comm, computeInteractionsEnabled_iff, not_lt]

/-- claim C1 — Phase ordering: for every scrollProgress with
0 ≤ scrollProgress ≤ 0.4, the eased spread sub-progress computed by
applyScrollAnimation is exactly 0, so every card's committed x position is
its initialX while the flip phase is still running. -/
theorem C1_spread_zero_in_flip_phase (p : ℚ) (h0 : 0 ≤ p) (h1 : p ≤ 0.4) :
    easedSpread p = 0 ∧
    ∀ s : State, s.scrollProgress = p →
      ∀ c' ∈ (applyScrollAnimation s).cards, ∃ c ∈ s.cards,
        c'.positionX = c.initialX ∧ c'.index = c.index := by
  have hz : easedSpread p = 0 := by
    rw [easedSpread, spreadProgress_eq_zero h1, easeInOutCubic_zero]
  refine ⟨hz, ?_⟩
  intro s hs c' hc'
  rw [applyScrollAnimation] at hc'
  split at hc'
  · rename_i hemp
    rw [List.isEmpty_iff] at hemp
    rw [hemp] at hc'
    exact absurd hc' (List.not_mem_nil c')
  · simp only [List.mem_map] at hc'
    obtain ⟨c, hc, rfl⟩ := hc'
    exact ⟨c, hc, by simp [updateCard, hs, hz], rfl⟩

/-- Witness for C1 at scrollProgress = 0 on the freshly created card set. -/
theorem C1_spread_zero_in_flip_phase_witness :
    easedSpread 0 = 0 ∧
    ∀ c' ∈ (applyScrollAnimation (createCards 2 initState)).cards,
      ∃ c ∈ (createCards 2 initState).cards,
        c'.positionX = c.initialX ∧ c'.index = c.index :=
  ⟨(C1_spread_zero_in_flip_phase 0 le_rfl (by norm_num)).1,
   (C1_spread_zero_in_flip_phase 0 le_rfl (by norm_num)).2
     (createCards 2 initState) rfl⟩

/-- claim C2 — Interaction gating: applyScrollAnimation sets
interactionsEnabled = (min(1, scrollProgress/0.4) ≥ 1), which is false for
scrollProgress < 0.4 and true for scrollProgress ≥ 0.4. -/
theorem C2_interaction_gating (s : State) (hne : s.cards ≠ []) :
    (applyScrollAnimation s).interactionsEnabled
        = computeInteractionsEnabled s.scrollProgress ∧
    (s.scrollProgress < 0.4 → (applyScrollAnimation s).interactionsEnabled = false) ∧
    (0.4 ≤ s.scrollProgress → (applyScrollAnimation s).interactionsEnabled = true) := by
  have hemp : s.cards.isEmpty = false := by
    rw [← Bool.not_eq_true, List.isEmpty_iff]
    exact hne
  have key : (applyScrollAnimation s).interactionsEnabled
      = computeInteractionsEnabled s.scrollProgress := by
    rw [applyScrollAnimation, hemp]
    simp
  refine ⟨key, fun h => ?_, fun h => ?_⟩
  · rw [key, computeInteractionsEnabled_eq_false_iff]
    exact h
  · rw [key, computeInteractionsEnabled_iff]
    exact h

/-- Witness for C2 on the freshly created card set (scrollProgress = 0 < 0.4,
so interactions are disabled). -/
theorem C2_interaction_gating_witness :
    (applyScrollAnimation (createCards 2 initState)).interactionsEnabled = false :=
  (C2_interaction_gating (createCards 2 initState) (by simp [createCards, initState])).2.1
    (by norm_num [createCards, initState])

/-- claim C3 — Clamp invariant: for scrollProgress in [0,1] both eased
sub-progress values lie in [0,1], and ease-in-out-cubic maps [0,1] into
[0,1]. -/
theorem C3_eased_clamp (p : ℚ) (h0 : 0 ≤ p) (h1 : p ≤ 1) :
    (0 ≤ easedFlip p ∧ easedFlip p ≤ 1) ∧
    (0 ≤ easedSpread p ∧ easedSpread p ≤ 1) ∧
    ∀ t : ℚ, 0 ≤ t → t ≤ 1 → 0 ≤ easeInOutCubic t ∧ easeInOutCubic t ≤ 1 := by
  obtain ⟨hf0, hf1⟩ := flipProgress_mem h0
  obtain ⟨hs0, hs1⟩ := spreadProgress_mem h1
  exact ⟨easeInOutCubic_mem hf0 hf1, easeInOutCubic_mem hs0 hs1,
    fun t ht0 ht1 => easeInOutCubic_mem ht0 ht1⟩

/-- Witness for C3 at scrollProgress = 1/2 and t = 3/4. -/
theorem C3_eased_clamp_witness :
    (0 ≤ easedFlip (1/2) ∧ easedFlip (1/2) ≤ 1) ∧
    (0 ≤ easedSpread (1/2) ∧ easedSpread (1/2) ≤ 1) ∧
    (0 ≤ easeInOutCubic (3/4) ∧ easeInOutCubic (3/4) ≤ 1) :=
  ⟨(C3_eased_clamp (1/2) (by norm_num) (by norm_num)).1,
   (C3_eased_clamp (1/2) (by norm_num) (by norm_num)).2.1,
   (C3_eased_clamp (1/2) (by norm_num) (by norm_num)).2.2 (3/4) (by norm_num) (by norm_num)⟩

/-- claim C4 — the pinned-branch progress computation has no lower clamp:
on a pinned frame (rectTop = 0 ≤ 0) with recorded anchor 3200 and current
scroll offset 0, animate sets scrollProgress to −1, a negative value,
contradicting the claimed clamp((current − anchor)/DISTANCE, 0, 1). The
code's own comments ("Map scroll distance to progress (0 to 1)", "0 to 1
based on scroll through section") document the [0,1] intent. -/
theorem C4_no_lower_clamp_eval :
    (animate true 0 0 none
        { initState with stickyStartScroll := some 3200 }).scrollProgress = -1 ∧
    ((-1 : ℚ) < 0) := by
  constructor
  · norm_num [animate, initState, applyScrollAnimation, checkIntersections,
      pinnedProgress, ANIMATION_SCROLL_DISTANCE, Option.getD, min_def]
  · norm_num

/-- claim C5 counterexample: with ANIMATION_SCROLL_DISTANCE = −3200 and
scrolledSinceSticky = 1600, the pinned-phase computation min(1, s/dist)
yields −1/2, not the claimed immediate 1. -/
theorem C5_counterexample :
    pinnedProgress (-3200) 1600 = -(1/2) ∧ pinnedProgress (-3200) 1600 ≠ 1 := by
  norm_num [pinnedProgress, min_def]

/-- claim C5 amended: the code contains no guard for a zero or negative
scroll distance; instead ANIMATION_SCROLL_DISTANCE is the hardcoded
positive constant 3200, so the division is always well-defined and the
pinned-phase progress is min(1, scrolledSinceSticky/3200), never above 1. -/
theorem C5_division_guard_amended :
    ANIMATION_SCROLL_DISTANCE = 3200 ∧ (0 : ℚ) < ANIMATION_SCROLL_DISTANCE ∧
    ∀ scrolled : ℚ,
      pinnedProgress ANIMATION_SCROLL_DISTANCE scrolled = min 1 (scrolled / 3200) ∧
      pinnedProgress ANIMATION_SCROLL_DISTANCE scrolled ≤ 1 :=
  ⟨rfl, by norm_num [ANIMATION_SCROLL_DISTANCE],
   fun _ => ⟨rfl, min_le_left _ _⟩⟩

theorem smoothStep_sub (t c : ℚ) : smoothStep t c - t = (17/20) * (c - t) := by
  rw [smoothStep]
  have h : (0.15 : ℚ) = 3/20 := by norm_num
  rw [h]
  ring

theorem smoothIter_sub (t c : ℚ) (n : ℕ) :
    smoothIter t c n - t = (17/20) ^ n * (c - t) := by
  induction n with
  | zero => simp [smoothIter]
  | succ n ih =>
    rw [smoothIter, smoothStep_sub, ih]
    ring

/-- claim C9 counterexample: with target 1 and current 1 (both in the hover
range), one smoothing step leaves the error at 0, so the strict decrease
|current(n+1) − target| < |current(n) − target| fails. -/
theorem C9_counterexample :
    (1 : ℚ) ≤ 1 ∧ (1 : ℚ) ≤ 1.1 ∧
    ¬ (|smoothStep 1 1 - 1| < |(1 : ℚ) - 1|) := by
  norm_num [smoothStep]

/-- claim C9 amended — hover-smoothing convergence: each step shrinks the
error by the factor 0.85 (non-strictly in general, strictly whenever
current ≠ target), and any initial error of at most 0.1 (the hover range:
current and target both in [1, 1.1] or both in [0, 1.5] differing by at
most the hover offset bound 0.1 in scale) is at most 0.01 — within 1% of
the rest scale — after 40 frames. -/
theorem C9_hover_smoothing_amended (t c : ℚ) :
    |smoothStep t c - t| ≤ |c - t| ∧
    (c ≠ t → |smoothStep t c - t| < |c - t|) ∧
    (|c - t| ≤ 0.1 → |smoothIter t c 40 - t| ≤ 0.01) := by
  have key : |smoothStep t c - t| = (17/20) * |c - t| := by
    rw [smoothStep_sub, abs_mul, abs_of_nonneg (by norm_num : (0:ℚ) ≤ 17/20)]
  refine ⟨?_, ?_, ?_⟩
  · rw [key]
    nlinarith [abs_nonneg (c - t)]
  · intro hne
    have hpos : 0 < |c - t| := abs_pos.mpr (sub_ne_zero.mpr hne)
    rw [key]
    nlinarith
  · intro hle
    have h40 : |smoothIter t c 40 - t| = (17/20)^40 * |c - t| := by
      rw [smoothIter_sub, abs_mul, abs_of_nonneg (by positivity)]
    have hp : ((17:ℚ)/20)^40 ≤ 1/10 := by norm_num
    have hle' : |c - t| ≤ 1/10 := le_trans hle (by norm_num)
    calc |smoothIter t c 40 - t| = (17/20)^40 * |c - t| := h40
      _ ≤ (1/10) * (1/10) := mul_le_mul hp hle' (abs_nonneg _) (by norm_num)
      _ ≤ 0.01 := by norm_num

/-- Witness for the amended C9 at target 1, current 1.05. -/
theorem C9_hover_smoothing_amended_witness :
    |smoothStep 1 1.05 - 1| < |(1.05 : ℚ) - 1| ∧
    |smoothIter 1 1.05 40 - 1| ≤ 0.01 :=
  ⟨(C9_hover_smoothing_amended 1 1.05).2.1 (by norm_num),
   (C9_hover_smoothing_amended 1 1.05).2.2 (by norm_num [abs_le])⟩

theorem smoothStep_bounds {lo hi t c : ℚ} (hlo : lo ≤ c) (hhi : c ≤ hi)
    (htlo : lo ≤ t) (hthi : t ≤ hi) :
    lo ≤ smoothStep t c ∧ smoothStep t c ≤ hi := by
  rw [smoothStep]
  have h : (0.15 : ℚ) = 3/20 := by norm_num
  rw [h]
  constructor <;> linarith

theorem updateCard_bounds {c : CardState} {ef es : ℚ} {en : Bool} {hov : Option Nat}
    (h : cardBounds c) : cardBounds (updateCard ef es en hov c) := by
  obtain ⟨⟨h1, h2⟩, ⟨h3, h4⟩, -, -⟩ := h
  have hsc : 1 ≤ smoothStep (if en = true ∧ hov = some c.index then (1.1:ℚ) else 1) c.hoverScale ∧
      smoothStep (if en = true ∧ hov = some c.index then (1.1:ℚ) else 1) c.hoverScale ≤ 1.1 := by
    split_ifs <;> exact smoothStep_bounds h1 h2 (by norm_num) (by norm_num)
  have hzz : 0 ≤ smoothStep (if en = true ∧ hov = some c.index then (1.5:ℚ) else 0) c.hoverZ ∧
      smoothStep (if en = true ∧ hov = some c.index then (1.5:ℚ) else 0) c.hoverZ ≤ 1.5 := by
    split_ifs <;> exact smoothStep_bounds h3 h4 (by norm_num) (by norm_num)
  exact ⟨⟨hsc.1, hsc.2⟩, ⟨hzz.1, hzz.2⟩, ⟨hsc.1, hsc.2⟩, rfl⟩

theorem mkCard_cardBounds (spacing : ℚ) (i : Nat) (name : String) :
    cardBounds (mkCard spacing i name) := by
  unfold cardBounds mkCard
  norm_num

theorem applyScrollAnimation_eq {s : State} (hne : s.cards.isEmpty = false) :
    applyScrollAnimation s =
      { s with
        interactionsEnabled := computeInteractionsEnabled s.scrollProgress
        hoveredCard :=
          if s.interactionsEnabled = true ∧
              computeInteractionsEnabled s.scrollProgress = false then none
          else s.hoveredCard
        cursorPointer :=
          if s.interactionsEnabled = true ∧
              computeInteractionsEnabled s.scrollProgress = false ∧
              s.hasRenderer = true then false
          else s.cursorPointer
        cards := s.cards.map (updateCard (easedFlip s.scrollProgress)
          (easedSpread s.scrollProgress)
          (computeInteractionsEnabled s.scrollProgress)
          (if s.interactionsEnabled = true ∧
              computeInteractionsEnabled s.scrollProgress = false then none
           else s.hoveredCard)) } := by
  unfold applyScrollAnimation
  rw [if_neg (by simp [hne] : ¬(s.cards.isEmpty = true))]

theorem applyScrollAnimation_inv {s : State} (h : Inv s) :
    Inv (applyScrollAnimation s) := by
  obtain ⟨h1, h2, h3⟩ := h
  unfold Inv applyScrollAnimation
  split
  · exact ⟨h1, h2, h3⟩
  · refine ⟨?_, ?_, ?_⟩
    · intro hov
      dsimp only at hov ⊢
      split_ifs
      · rfl
      · exact h1 hov
    · intro hen
      dsimp only at hen ⊢
      split_ifs with hcond
      · rfl
      · cases hb : s.interactionsEnabled with
        | false => exact h2 hb
        | true => exact absurd ⟨hb, hen⟩ hcond
    · intro c' hc'
      dsimp only at hc'
      rw [List.mem_map] at hc'
      obtain ⟨c, hc, rfl⟩ := hc'
      exact updateCard_bounds (h3 c hc)

theorem checkIntersections_mouseIsOver (hit : Option Nat) (s : State) :
    (checkIntersections hit s).mouseIsOver = s.mouseIsOver := by
  unfold checkIntersections
  split
  · split <;> rfl
  · split
    · rfl
    · split
      · rfl
      · split <;> split <;> rfl

theorem checkIntersections_interactionsEnabled (hit : Option Nat) (s : State) :
    (checkIntersections hit s).interactionsEnabled = s.interactionsEnabled := by
  unfold checkIntersections
  split
  · split <;> rfl
  · split
    · rfl
    · split
      · rfl
      · split <;> split <;> rfl

theorem checkIntersections_cards (hit : Option Nat) (s : State) :
    (checkIntersections hit s).cards = s.cards := by
  unfold checkIntersections
  split
  · split <;> rfl
  · split
    · rfl
    · split
      · rfl
      · split <;> split <;> rfl

theorem checkIntersections_scrollProgress (hit : Option Nat) (s : State) :
    (checkIntersections hit s).scrollProgress = s.scrollProgress := by
  unfold checkIntersections
  split
  · split <;> rfl
  · split
    · rfl
    · split
      · rfl
      · split <;> split <;> rfl

theorem checkIntersections_hoveredCard (hit : Option Nat) (s : State) :
    (checkIntersections hit s).hoveredCard = none ∨
    (checkIntersections hit s).hoveredCard = s.hoveredCard ∨
    (s.interactionsEnabled = true ∧ s.mouseIsOver = true) := by
  unfold checkIntersections
  split
  · split
    · exact Or.inl rfl
    · exact Or.inr (Or.inl rfl)
  · rename_i hA
    have hAt : s.interactionsEnabled = true := by
      revert hA
      cases s.interactionsEnabled <;> simp
    split
    · exact Or.inr (Or.inl rfl)
    · rename_i hB
      have hBt : s.mouseIsOver = true := by
        revert hB
        cases s.mouseIsOver <;> simp
      exact Or.inr (Or.inr ⟨hAt, hBt⟩)

theorem checkIntersections_inv {hit : Option Nat} {s : State} (h : Inv s) :
    Inv (checkIntersections hit s) := by
  obtain ⟨h1, h2, h3⟩ := h
  have hm := checkIntersections_mouseIsOver hit s
  have he := checkIntersections_interactionsEnabled hit s
  have hc := checkIntersections_cards hit s
  refine ⟨?_, ?_, ?_⟩
  · intro hov
    rcases checkIntersections_hoveredCard hit s with h' | h' | ⟨-, hB⟩
    · exact h'
    · rw [h']
      exact h1 (hm ▸ hov)
    · rw [hm] at hov
      rw [hov] at hB
      exact absurd hB (by simp)
  · intro hen
    rcases checkIntersections_hoveredCard hit s with h' | h' | ⟨hA, -⟩
    · exact h'
    · rw [h']
      exact h2 (he ▸ hen)
    · rw [he] at hen
      rw [hen] at hA
      exact absurd hA (by simp)
  · intro c hcc
    rw [hc] at hcc
    exact h3 c hcc

theorem animate_inv (se : Bool) (rt cs : ℚ) (hit : Option Nat) {s : State}
    (h : Inv s) : Inv (animate se rt cs hit s) := by
  unfold animate
  split
  · dsimp only
    apply checkIntersections_inv
    apply applyScrollAnimation_inv
    split
    · exact ⟨h.1, h.2.1, h.2.2⟩
    · exact ⟨h.1, h.2.1, h.2.2⟩
  · exact h

theorem onMouseMove_inv (cx cy rl rt rw rh : ℚ) {s : State} (h : Inv s) :
    Inv (onMouseMove cx cy rl rt rw rh s) := by
  unfold onMouseMove
  split
  · exact h
  · exact ⟨fun hov => Bool.noConfusion hov, h.2.1, h.2.2⟩

theorem onMouseLeave_hoveredCard (s : State) :
    (onMouseLeave s).hoveredCard = none := by
  unfold onMouseLeave
  dsimp only
  split
  · rfl
  · rename_i hcond
    exact not_not.mp hcond

theorem onMouseLeave_inv {s : State} (h : Inv s) : Inv (onMouseLeave s) := by
  have hh := onMouseLeave_hoveredCard s
  have hcards : (onMouseLeave s).cards = s.cards := by
    unfold onMouseLeave
    dsimp only
    split <;> rfl
  exact ⟨fun _ => hh, fun _ => hh, fun c hc => h.2.2 c (hcards ▸ hc)⟩

theorem onClick_fst (s : State) : (onClick s).1 = s := by
  unfold onClick
  split
  · rfl
  · split
    · rfl
    · split <;> rfl

theorem init_inv (found : Bool) {s : State} (h : Inv s) : Inv (init found s) := by
  unfold init
  split
  · exact ⟨h.1, h.2.1, h.2.2⟩
  · exact h

theorem createCards_inv (spacing : ℚ) {s : State} (h : Inv s) :
    Inv (createCards spacing s) := by
  refine ⟨h.1, h.2.1, ?_⟩
  intro c hc
  rw [createCards] at hc
  dsimp only at hc
  rw [List.mem_append] at hc
  rcases hc with hc | hc
  · exact h.2.2 c hc
  · rw [List.mem_map] at hc
    obtain ⟨i, -, rfl⟩ := hc
    exact mkCard_cardBounds spacing i _

theorem reachable_inv {s : State} (h : Reachable s) : Inv s := by
  induction h with
  | base =>
    exact ⟨fun _ => rfl, fun _ => rfl,
      fun c hc => absurd hc (List.not_mem_nil c)⟩
  | step hr st ih =>
    cases st with
    | frame se rt cs hit hhit => exact animate_inv se rt cs hit ih
    | mouseMove cx cy rl rt rw rh => exact onMouseMove_inv cx cy rl rt rw rh ih
    | mouseLeave => exact onMouseLeave_inv ih
    | click => exact (onClick_fst _).symm ▸ ih
    | setup found => exact init_inv found ih
    | create spacing => exact createCards_inv spacing ih

theorem checkIntersections_disabled_nohover {hit : Option Nat} {s : State}
    (h1 : s.interactionsEnabled = false) (h2 : s.hoveredCard = none) :
    checkIntersections hit s = s := by
  unfold checkIntersections
  rw [if_pos h1, if_neg (by simp [h2] : ¬(s.hoveredCard ≠ none))]

theorem computeInteractionsEnabled_zero : computeInteractionsEnabled 0 = false := by
  rw [computeInteractionsEnabled_eq_false_iff]
  norm_num

/-- claim C6 — Reset atomicity: on a frame where the section is no longer
pinned (rectTop > 0) the progress falls back to 0, and that same animate
call disables interactions and clears the hover; moreover in no reachable
state is interactionsEnabled false while hoveredCard is non-null. -/
theorem C6_reset_atomicity :
    (∀ (s : State) (rectTop currentScroll : ℚ) (hit : Option Nat),
      s.cards ≠ [] → s.interactionsEnabled = true → 0.4 ≤ s.scrollProgress →
      0 < rectTop →
      (animate true rectTop currentScroll hit s).scrollProgress = 0 ∧
      (animate true rectTop currentScroll hit s).interactionsEnabled = false ∧
      (animate true rectTop currentScroll hit s).hoveredCard = none) ∧
    (∀ s : State, Reachable s → s.interactionsEnabled = false →
      s.hoveredCard = none) := by
  constructor
  · intro s rectTop currentScroll hit hne hen hp hrt
    unfold animate
    rw [if_pos rfl, if_neg (not_le.mpr hrt)]
    dsimp only
    set s1 : State := { s with scrollProgress := 0, stickyStartScroll := none } with hs1
    have hemp : s1.cards.isEmpty = false := by
      rw [← Bool.not_eq_true, List.isEmpty_iff]
      exact hne
    rw [applyScrollAnimation_eq hemp]
    have hcz : computeInteractionsEnabled s1.scrollProgress = false :=
      computeInteractionsEnabled_zero
    have hcond : s1.interactionsEnabled = true ∧
        computeInteractionsEnabled s1.scrollProgress = false := ⟨hen, hcz⟩
    rw [if_pos hcond]
    rw [checkIntersections_disabled_nohover hcz rfl]
    exact ⟨rfl, hcz, rfl⟩
  · intro s hr hen
    exact (reachable_inv hr).2.1 hen

/-- Witness for C6: scroll-up past the pin point from a fully animated
enabled state disables interactions and clears the hover; and in the
freshly constructed state the disabled/no-hover consistency holds. -/
theorem C6_reset_atomicity_witness :
    ((animate true 1 0 none
        { createCards 2 initState with
          interactionsEnabled := true, scrollProgress := 1 }).scrollProgress = 0 ∧
     (animate true 1 0 none
        { createCards 2 initState with
          interactionsEnabled := true, scrollProgress := 1 }).interactionsEnabled = false ∧
     (animate true 1 0 none
        { createCards 2 initState with
          interactionsEnabled := true, scrollProgress := 1 }).hoveredCard = none) ∧
    initState.hoveredCard = none :=
  ⟨C6_reset_atomicity.1
      { createCards 2 initState with interactionsEnabled := true, scrollProgress := 1 }
      1 0 none
      (by simp [createCards, initState])
      rfl (by norm_num) (by norm_num),
   C6_reset_atomicity.2 initState Reachable.base rfl⟩

/-- claim C7 — Pointer-outside invariant: the mouseleave handler clears the
hover and parks the pointer at the sentinel; checkIntersections never sets a
hover while the pointer is off the canvas; and in every reachable state with
the pointer off the canvas at the sentinel, hoveredCard is null. -/
theorem C7_pointer_outside :
    (∀ s : State, (onMouseLeave s).mouseIsOver = false ∧
      (onMouseLeave s).mouseX = -999 ∧ (onMouseLeave s).mouseY = -999 ∧
      (onMouseLeave s).hoveredCard = none) ∧
    (∀ (hit : Option Nat) (s : State), s.mouseIsOver = false →
      (checkIntersections hit s).hoveredCard = none ∨
      (checkIntersections hit s).hoveredCard = s.hoveredCard) ∧
    (∀ s : State, Reachable s → s.mouseIsOver = false →
      s.mouseX = -999 → s.mouseY = -999 → s.hoveredCard = none) := by
  refine ⟨?_, ?_, ?_⟩
  · intro s
    have hx : (onMouseLeave s).mouseIsOver = false ∧
        (onMouseLeave s).mouseX = -999 ∧ (onMouseLeave s).mouseY = -999 := by
      unfold onMouseLeave
      dsimp only
      split <;> exact ⟨rfl, rfl, rfl⟩
    exact ⟨hx.1, hx.2.1, hx.2.2, onMouseLeave_hoveredCard s⟩
  · intro hit s hov
    rcases checkIntersections_hoveredCard hit s with h' | h' | ⟨-, hB⟩
    · exact Or.inl h'
    · exact Or.inr h'
    · rw [hov] at hB
      exact absurd hB (by simp)
  · intro s hr hov _ _
    exact (reachable_inv hr).1 hov

/-- Witness for C7 at the freshly constructed state (pointer off-canvas at
the sentinel). -/
theorem C7_pointer_outside_witness :
    (onMouseLeave initState).hoveredCard = none ∧
    ((checkIntersections none initState).hoveredCard = none ∨
     (checkIntersections none initState).hoveredCard = initState.hoveredCard) ∧
    initState.hoveredCard = none :=
  ⟨(C7_pointer_outside.1 initState).2.2.2,
   C7_pointer_outside.2.1 none initState rfl,
   C7_pointer_outside.2.2 initState Reachable.base rfl rfl rfl⟩

/-- claim C8 — Click contract: a click never mutates the animation state;
with interactions enabled, renderer and camera present, and a hovered card,
it emits exactly one categoryCardClick notification carrying the hovered
card's category name and index; in every other case it emits nothing. -/
theorem C8_click_contract (s : State) :
    (onClick s).1 = s ∧
    (∀ (i : Nat) (c : CardState), s.interactionsEnabled = true →
      s.hasRenderer = true → s.hasCamera = true → s.hoveredCard = some i →
      s.cards.find? (fun c0 => c0.index == i) = some c →
      (onClick s).2 = [{ category := c.categoryName, index := c.index }]) ∧
    ((s.interactionsEnabled = false ∨ s.hasRenderer = false ∨
      s.hasCamera = false ∨ s.hoveredCard = none) → (onClick s).2 = []) := by
  refine ⟨onClick_fst s, ?_, ?_⟩
  · intro i c hen hren hcam hhov hfind
    unfold onClick
    rw [if_neg (by simp [hen, hren, hcam]), hhov]
    dsimp only
    rw [hfind]
  · intro hcase
    unfold onClick
    rcases hcase with h | h | h | h
    · rw [if_pos (Or.inl h)]
    · rw [if_pos (Or.inr (Or.inl h))]
    · rw [if_pos (Or.inr (Or.inr h))]
    · split
      · rfl
      · rw [h]

/-- Witness for C8: in a state with interactions enabled, renderer and
camera present, and card 0 ("Baseball") hovered, the click emits exactly
the one expected notification; clicking the fresh state emits nothing. -/
theorem C8_click_contract_witness :
    (onClick { createCards 2 initState with
        interactionsEnabled := true, hasRenderer := true, hasCamera := true,
        hoveredCard := some 0 }).2 = [{ category := "Baseball", index := 0 }] ∧
    (onClick initState).2 = [] :=
  ⟨(C8_click_contract { createCards 2 initState with
        interactionsEnabled := true, hasRenderer := true, hasCamera := true,
        hoveredCard := some 0 }).2.1 0 (mkCard 2 0 "Baseball")
      rfl rfl rfl rfl rfl,
   (C8_click_contract initState).2.2 (Or.inl rfl)⟩

/-- claim C10 — Implicit hover-state bounds: in every reachable state every
card's hoverScale lies in [1, 1.1], its hoverZ in [0, 1.5], its committed
uniform scale in [1, 1.1], and its committed depth is its stacking offset
plus its hoverZ. -/
theorem C10_hover_state_bounds (s : State) (hr : Reachable s) :
    ∀ c ∈ s.cards,
      (1 ≤ c.hoverScale ∧ c.hoverScale ≤ 1.1) ∧
      (0 ≤ c.hoverZ ∧ c.hoverZ ≤ 1.5) ∧
      (1 ≤ c.scaleXYZ ∧ c.scaleXYZ ≤ 1.1) ∧
      c.positionZ = c.baseZ + c.hoverZ := by
  intro c hc
  exact (reachable_inv hr).2.2 c hc

/-- Witness for C10 at the freshly created card set. -/
theorem C10_hover_state_bounds_witness :
    (1 ≤ (mkCard 2 0 "Baseball").hoverScale ∧ (mkCard 2 0 "Baseball").hoverScale ≤ 1.1) ∧
    (0 ≤ (mkCard 2 0 "Baseball").hoverZ ∧ (mkCard 2 0 "Baseball").hoverZ ≤ 1.5) ∧
    (1 ≤ (mkCard 2 0 "Baseball").scaleXYZ ∧ (mkCard 2 0 "Baseball").scaleXYZ ≤ 1.1) ∧
    (mkCard 2 0 "Baseball").positionZ =
      (mkCard 2 0 "Baseball").baseZ + (mkCard 2 0 "Baseball").hoverZ :=
  C10_hover_state_bounds (createCards 2 initState)
    (Reachable.step Reachable.base (Step.create initState 2))
    (mkCard 2 0 "Baseball")
    (by
      simp only [createCards, initState, List.nil_append]
      exact List.mem_map.mpr ⟨0, by simp, rfl⟩)

end CategoryCards
